import Mathlib

/-!
Verification development for the multi-channel audio queue engine described
by the `audio-channel-queue` documentation corpus.  The repository ships only
the documentation of the engine (Markdown/TS declarations); the engine itself
is reconstructed here from the specification, staying faithful to the
signatures, defaults and result shapes that the documentation files declare.
-/

namespace AudioQueue

/-- Modelled from the spec: playback status of a channel (§4.2).  The engine
is missing from the repository; we collapse the per-item machine to whether
the channel currently holds an in-flight item (`active`) or not (`idle`),
which is the distinction the documented invariants are stated over. -/
inductive Status where
  | idle
  | active
deriving DecidableEq, Repr

/-- Modelled from the spec: one audio item awaiting or undergoing playback
(§3 QueueEntry; docs `QueueItem` in advanced-queue-manipulation.md).  The
`isPlaying` flag is the documented `isCurrentlyPlaying` runtime field. -/
structure QueueEntry where
  src : String
  loop : Bool
  volume : ℚ
  isPlaying : Bool
deriving DecidableEq, Repr

/-- Modelled from the spec: per-enqueue options (docs `AudioQueueOptions` in
event-listeners.md): `addToFront`, `loop`, `maxQueueSize`, `volume`. -/
structure AudioOptions where
  loop : Bool := false
  volume : ℚ := 1
  maxQueueSize : Option Nat := none
  addToFront : Bool := false
deriving DecidableEq, Repr

/-- Modelled from the spec: one independent playback lane (§3 Channel):
ordered queue, baseline volume, pause flag, ducking override, status. -/
structure Channel where
  queue : List QueueEntry
  volume : ℚ := 1
  isPaused : Bool := false
  duckState : Option ℚ := none
  status : Status := Status.idle
deriving DecidableEq, Repr

/-- Modelled from the spec: a freshly created channel, before any enqueue. -/
def emptyChannel : Channel :=
  { queue := [], volume := 1, isPaused := false, duckState := none,
    status := Status.idle }

/-- Modelled from the spec: global queue configuration (docs `QueueConfig` in
event-listeners.md): default cap unlimited, reject-when-full by default. -/
structure QueueConfig where
  defaultMaxQueueSize : Option Nat := none
  dropOldestWhenFull : Bool := false
  showQueueWarnings : Bool := true
deriving DecidableEq, Repr

/-- Modelled from the spec: the documented default queue configuration. -/
def defaultQueueConfig : QueueConfig := {}

/-- Whether the documented head entry carries `isCurrentlyPlaying = true`. -/
def headPlaying (c : Channel) : Bool :=
  (c.queue.head?.map QueueEntry.isPlaying).getD false

/-- All pending entries (index ≥ 1) have `isCurrentlyPlaying = false`. -/
def pendingNotPlaying (c : Channel) : Bool :=
  c.queue.tail.all fun e => !e.isPlaying

/-- Modelled from the spec: the documented queue invariant (§8): no index ≥ 1
is playing, and index 0 is playing iff the queue is non-empty and the channel
is not idle. -/
def wf (c : Channel) : Prop :=
  pendingNotPlaying c = true ∧
    (headPlaying c = true ↔ (c.queue ≠ [] ∧ c.status ≠ Status.idle))

instance (c : Channel) : Decidable (wf c) := by
  unfold wf
  infer_instance

/-- Modelled from the spec: the effective per-channel cap is the per-enqueue
option when given, else the global default (docs: `maxQueueSize` option,
`defaultMaxQueueSize` config). -/
def effectiveCap (cfg : QueueConfig) (opts : AudioOptions) : Option Nat :=
  match opts.maxQueueSize with
  | some n => some n
  | none => cfg.defaultMaxQueueSize

/-- Whether the channel has reached its effective cap. -/
def queueIsFull (cfg : QueueConfig) (opts : AudioOptions) (c : Channel) :
    Bool :=
  match effectiveCap cfg opts with
  | none => false
  | some cap => cap ≤ c.queue.length

/-- Modelled from the spec: the entry created when an enqueue lands on an
empty channel and playback begins at once (index 0, playing). -/
def startEntry (src : String) (opts : AudioOptions) : QueueEntry :=
  { src := src, loop := opts.loop, volume := opts.volume, isPlaying := true }

/-- Modelled from the spec: the entry created for a pending slot (index ≥ 1,
not playing). -/
def pendingEntry (src : String) (opts : AudioOptions) : QueueEntry :=
  { src := src, loop := opts.loop, volume := opts.volume, isPlaying := false }

/-- Outcome of an enqueue (spec §4.1: accept, accept after evicting the
oldest pending entry, or reject with `QueueFullError`). -/
inductive EnqueueResult where
  | ok
  | dropped
  | queueFull
deriving DecidableEq, Repr

/-- Modelled from the spec: placement of a new entry (§4.1 `enqueue`):
appended to the end, or inserted at index 1 when `addToFront` is requested —
never at index 0, which is reserved for the in-flight item; an enqueue onto
an empty queue starts playback immediately. -/
def insertNew (src : String) (opts : AudioOptions) (c : Channel) : Channel :=
  match c.queue with
  | [] => { c with queue := [startEntry src opts], status := Status.active }
  | p :: rest =>
      if opts.addToFront then
        { c with queue := p :: pendingEntry src opts :: rest }
      else
        { c with queue := p :: (rest ++ [pendingEntry src opts]) }

/-- Modelled from the spec: `enqueue` / `queueAudio` (§4.1).  When the cap is
reached the enqueue is rejected, or the oldest pending (non-playing) entry —
index 1 — is evicted first, per `dropOldestWhenFull`. -/
def enqueue (cfg : QueueConfig) (src : String) (opts : AudioOptions)
    (c : Channel) : EnqueueResult × Channel :=
  if queueIsFull cfg opts c then
    if cfg.dropOldestWhenFull then
      (EnqueueResult.dropped,
        insertNew src opts { c with queue := c.queue.take 1 ++ c.queue.drop 2 })
    else
      (EnqueueResult.queueFull, c)
  else
    (EnqueueResult.ok, insertNew src opts c)

/-- Modelled from the spec: `enqueuePriority` / `queueAudioPriority`
(queue-management.md): identical to `queueAudio` except the new entry goes to
the front of the pending region (index 1). -/
def enqueuePriority (cfg : QueueConfig) (src : String) (opts : AudioOptions)
    (c : Channel) : EnqueueResult × Channel :=
  enqueue cfg src { opts with addToFront := true } c

/-- Modelled from the spec: the standardized result object that every queue
manipulation function returns (docs `QueueManipulationResult`). -/
structure QueueManipulationResult where
  success : Bool
  error : Option String := none
  updatedQueue : Option (List QueueEntry) := none
deriving DecidableEq, Repr

/-- Modelled from the spec: `removeQueuedItem` (advanced-queue-manipulation.md):
fails on index 0 (the currently playing item) or an out-of-range index,
leaving the queue untouched; otherwise removes the entry and re-indexes. -/
def removeQueuedItem (i : Nat) (c : Channel) :
    QueueManipulationResult × Channel :=
  if i = 0 then
    ({ success := false,
       error := some "cannot remove the currently playing item at index 0" },
      c)
  else if c.queue.length ≤ i then
    ({ success := false, error := some "index out of range" }, c)
  else
    let q := c.queue.take i ++ c.queue.drop (i + 1)
    ({ success := true, updatedQueue := some q }, { c with queue := q })

/-- Modelled from the spec: `reorderQueue` (advanced-queue-manipulation.md):
both indices must be ≥ 1 and in range, else the call fails and the queue is
unchanged; on success the entry moves, preserving the order of the rest. -/
def reorderQueue (fromIdx toIdx : Nat) (c : Channel) :
    QueueManipulationResult × Channel :=
  if 1 ≤ fromIdx ∧ fromIdx < c.queue.length ∧
      1 ≤ toIdx ∧ toIdx < c.queue.length then
    match c.queue with
    | [] =>
        ({ success := false, error := some "invalid index" }, c)
    | p :: t =>
        match t[fromIdx - 1]? with
        | none =>
            ({ success := false, error := some "invalid index" }, c)
        | some entry =>
            let t1 := t.take (fromIdx - 1) ++ t.drop fromIdx
            let t2 := t1.take (toIdx - 1) ++ entry :: t1.drop (toIdx - 1)
            ({ success := true, updatedQueue := some (p :: t2) },
              { c with queue := p :: t2 })
  else
    ({ success := false, error := some "invalid index" }, c)

/-- Modelled from the spec: `swapQueueItems` (advanced-queue-manipulation.md):
both indices must be ≥ 1 and in range, else the call fails and the queue is
unchanged; on success the two entries exchange positions. -/
def swapQueueItems (a b : Nat) (c : Channel) :
    QueueManipulationResult × Channel :=
  if 1 ≤ a ∧ a < c.queue.length ∧ 1 ≤ b ∧ b < c.queue.length then
    match c.queue with
    | [] =>
        ({ success := false, error := some "invalid index" }, c)
    | p :: t =>
        match t[a - 1]?, t[b - 1]? with
        | some ea, some eb =>
            let t2 := (t.set (a - 1) eb).set (b - 1) ea
            ({ success := true, updatedQueue := some (p :: t2) },
              { c with queue := p :: t2 })
        | _, _ =>
            ({ success := false, error := some "invalid index" }, c)
  else
    ({ success := false, error := some "invalid index" }, c)

/-- Modelled from the spec: `clearQueueAfterCurrent`
(advanced-queue-manipulation.md): truncates the queue to just the playing
entry at index 0, or empties it entirely if nothing is playing. -/
def clearQueueAfterCurrent (c : Channel) :
    QueueManipulationResult × Channel :=
  if headPlaying c then
    ({ success := true, updatedQueue := some (c.queue.take 1) },
      { c with queue := c.queue.take 1 })
  else
    ({ success := true, updatedQueue := some [] }, { c with queue := [] })

/-- Modelled from the spec: `advance` (§4.1): removes index 0, promotes
index 1 (marking it playing) when present, else the channel goes idle. -/
def advance (c : Channel) : Channel :=
  match c.queue with
  | [] => { c with status := Status.idle }
  | _ :: [] => { c with queue := [], status := Status.idle }
  | _ :: e :: rest =>
      { c with queue := { e with isPlaying := true } :: rest,
               status := Status.active }

/-- Modelled from the spec: global retry policy (docs `RetryConfig` in
docusaurus.config.ts). -/
structure RetryConfig where
  baseDelay : Nat
  enabled : Bool
  exponentialBackoff : Bool
  fallbackUrls : List String
  maxRetries : Nat
  skipOnFailure : Bool
  timeoutMs : Nat
deriving DecidableEq, Repr

/-- Modelled from the spec: the documented default retry configuration
(docusaurus.config.ts field comments: 1 s base delay, enabled, exponential
backoff, no fallback URLs, 3 retries max, no skip on failure, 10 s load
timeout). -/
def defaultRetryConfig : RetryConfig :=
  { baseDelay := 1000, enabled := true, exponentialBackoff := true,
    fallbackUrls := [], maxRetries := 3, skipOnFailure := false,
    timeoutMs := 10000 }

/-- Modelled from the spec: delay before the retry numbered `attempt`
(§4.5 step 2): `baseDelay × 2^attempt` under exponential backoff, else the
flat `baseDelay`. -/
def retryDelay (cfg : RetryConfig) (attempt : Nat) : Nat :=
  if cfg.exponentialBackoff then cfg.baseDelay * 2 ^ attempt else cfg.baseDelay

/-- Action the Error & Retry Manager takes on one native failure (§4.5). -/
inductive RetryAction where
  | fallback (url : String)
  | retry (delay : Nat)
  | terminalError
deriving DecidableEq, Repr

/-- Modelled from the spec: policy evaluation on one failure (§4.5, in
order): next unexhausted fallback URL first (not counted against
`maxRetries`); else a scheduled retry while `enabled` and attempts so far
are below `maxRetries`; else a terminal error event. -/
def decideOnFailure (cfg : RetryConfig) (fallbacksUsed attempt : Nat) :
    RetryAction :=
  match cfg.fallbackUrls[fallbacksUsed]? with
  | some url => RetryAction.fallback url
  | none =>
      if cfg.enabled ∧ attempt < cfg.maxRetries then
        RetryAction.retry (retryDelay cfg attempt)
      else
        RetryAction.terminalError

/-- Observable outcome of one failure of the entry at index 0. -/
inductive FailureEvent where
  | retryScheduled (delay : Nat)
  | terminalError
deriving DecidableEq, Repr

/-- Modelled from the spec: the event trace of up to `n` consecutive failures
of one entry, starting at the given attempt count.  A scheduled retry
consumes one attempt; a fallback consumes none; after the terminal error the
channel halts (no `skipOnFailure`), so no further automatic attempt occurs
and the trace ends. -/
def simulateFailures (cfg : RetryConfig) (fallbacksUsed attempt : Nat) :
    Nat → List FailureEvent
  | 0 => []
  | n + 1 =>
      match decideOnFailure cfg fallbacksUsed attempt with
      | RetryAction.fallback _ =>
          simulateFailures cfg (fallbacksUsed + 1) attempt n
      | RetryAction.retry d =>
          FailureEvent.retryScheduled d ::
            simulateFailures cfg fallbacksUsed (attempt + 1) n
      | RetryAction.terminalError => [FailureEvent.terminalError]

/-- Modelled from the spec: global ducking policy (docs `VolumeConfig` in
volume-ducking.md): priority channel, its volume, the ducked volume for the
others, and transition timings. -/
structure VolumeConfig where
  priorityChannel : Nat
  priorityVolume : ℚ
  duckingVolume : ℚ
  duckTransitionDuration : Nat := 250
  restoreTransitionDuration : Nat := 250
deriving DecidableEq, Repr

/-- Modelled from the spec: whole-engine state (§3): the lazily created
channels keyed by number, the installed ducking policy, the global retry
policy and the global queue configuration. -/
structure System where
  channels : List (Nat × Channel)
  ducking : Option VolumeConfig := none
  retry : RetryConfig := defaultRetryConfig
  queueCfg : QueueConfig := defaultQueueConfig
deriving DecidableEq, Repr

/-- Modelled from the spec: engine state at startup, before any
configuration call: no channels, no ducking policy, default retry policy. -/
def initialSystem : System :=
  { channels := [], ducking := none, retry := defaultRetryConfig,
    queueCfg := defaultQueueConfig }

/-- Modelled from the spec: `getRetryConfig` (docusaurus.config.ts): returns
the current global retry configuration. -/
def getRetryConfig (s : System) : RetryConfig :=
  s.retry

/-- Modelled from the spec: `setRetryConfig` (docusaurus.config.ts):
replaces the global retry configuration wholesale. -/
def setRetryConfig (cfg : RetryConfig) (s : System) : System :=
  { s with retry := cfg }

/-- Look up a channel by number. -/
def getChannel (s : System) (n : Nat) : Option Channel :=
  (s.channels.find? fun p => p.1 == n).map fun p => p.2

/-- Modelled from the spec: whether a channel currently has active playback
(its index-0 entry is playing); a missing channel is inactive. -/
def channelActive (s : System) (n : Nat) : Bool :=
  match getChannel s n with
  | some c => headPlaying c
  | none => false

/-- Modelled from the spec: the ducking override applied to one channel when
the policy is (re-)evaluated (§4.4): while the priority channel is active,
the priority channel is driven to `priorityVolume` and every other channel
to `duckingVolume`; when it is inactive, every override is removed. -/
def applyDuck (cfg : VolumeConfig) (active : Bool) (n : Nat) (c : Channel) :
    Channel :=
  if active then
    if n = cfg.priorityChannel then
      { c with duckState := some cfg.priorityVolume }
    else
      { c with duckState := some cfg.duckingVolume }
  else
    { c with duckState := none }

/-- Modelled from the spec: `setVolumeDucking` (volume-ducking.md, §4.4):
installs the global policy and immediately evaluates whether the priority
channel is active, applying ducked/baseline volumes to every channel
accordingly. -/
def setVolumeDucking (cfg : VolumeConfig) (s : System) : System :=
  let active := channelActive s cfg.priorityChannel
  { s with ducking := some cfg,
           channels := s.channels.map fun p => (p.1, applyDuck cfg active p.1 p.2) }

/-- Modelled from the spec: effective volume of a channel — the ducking
override when present, the baseline otherwise (§3: `duckState ?? volume`). -/
def effectiveVolume (c : Channel) : ℚ :=
  c.duckState.getD c.volume

/-- Effective volume of channel `n` of the system, when the channel exists. -/
def channelEffectiveVolume (s : System) (n : Nat) : Option ℚ :=
  (getChannel s n).map effectiveVolume

/-- Event kinds the per-channel subscriber registry distinguishes (§3, §4.3
and the documented `on…`/`off…` families). -/
inductive EventKind where
  | start
  | complete
  | pause
  | resume
  | progress
  | queueChange
  | error
deriving DecidableEq, Repr

/-- Modelled from the spec: the subscriber registry — per channel and event
kind, callbacks in registration order (callbacks abstracted as numeric
identities).  Fan-out order is list order. -/
structure Registry where
  subs : List (Nat × EventKind × Nat)
deriving DecidableEq, Repr

/-- Registry with no subscriptions. -/
def emptyRegistry : Registry :=
  { subs := [] }

/-- Modelled from the spec: registration shared by the documented `on…`
functions: appends the callback for the channel and kind; the documented
return type is `void`, modelled as `Unit`. -/
def subscribe (ch : Nat) (k : EventKind) (cb : Nat) (r : Registry) :
    Unit × Registry :=
  ((), { subs := r.subs ++ [(ch, k, cb)] })

/-- Modelled from the spec: `onAudioStart(channelNumber, callback): void`
(event-listeners.md). -/
def onAudioStart (ch cb : Nat) (r : Registry) : Unit × Registry :=
  subscribe ch EventKind.start cb r

/-- Modelled from the spec: `onAudioProgress(channelNumber, callback): void`
(event-listeners.md). -/
def onAudioProgress (ch cb : Nat) (r : Registry) : Unit × Registry :=
  subscribe ch EventKind.progress cb r

/-- Modelled from the spec: `onAudioError(channelNumber, callback): void`
(docusaurus.config.ts). -/
def onAudioError (ch cb : Nat) (r : Registry) : Unit × Registry :=
  subscribe ch EventKind.error cb r

/-- Modelled from the spec: removal of exactly one identified callback for a
channel and kind, shared by the documented `off…(channel, callback)`
calls. -/
def unsubscribe (ch : Nat) (k : EventKind) (cb : Nat) (r : Registry) :
    Registry :=
  { subs := r.subs.filter fun e => !(e.1 == ch && e.2.1 == k && e.2.2 == cb) }

/-- Modelled from the spec: `offAudioStart(channelNumber, callback)`
(event-listeners.md usage): removes exactly that callback. -/
def offAudioStart (ch cb : Nat) (r : Registry) : Registry :=
  unsubscribe ch EventKind.start cb r

/-- Modelled from the spec: `offAudioProgress(channelNumber?): void`
(event-listeners part): takes no callback argument and removes every
progress callback registered for the channel. -/
def offAudioProgress (ch : Nat) (r : Registry) : Registry :=
  { subs := r.subs.filter fun e => !(e.1 == ch && e.2.1 == EventKind.progress) }


/-- Fuel-indexed playback trace: the source played at each natural
completion, obtained by repeatedly advancing the queue. -/
def playTraceAux : Nat → Channel → List String
  | 0, _ => []
  | n + 1, c =>
      match c.queue with
      | [] => []
      | e :: _ => e.src :: playTraceAux n (advance c)

/-- Modelled from the spec: the order in which a channel plays its queued
items when every item completes naturally and nothing else intervenes
(§4.1 `advance`, §4.2 terminal states). -/
def playTrace (c : Channel) : List String :=
  playTraceAux c.queue.length c

/-- Retry configuration exercised by the documented retry-bound property:
`maxRetries = 3`, `exponentialBackoff = true`, `baseDelay = 100`, no
fallback URLs. -/
def retryCfg100 : RetryConfig :=
  { baseDelay := 100, enabled := true, exponentialBackoff := true,
    fallbackUrls := [], maxRetries := 3, skipOnFailure := false,
    timeoutMs := 10000 }

/-- Concrete playing entry used by witnesses. -/
def entryP : QueueEntry :=
  { src := "p", loop := false, volume := 1, isPlaying := true }

/-- Concrete pending entry used by witnesses. -/
def entryQ : QueueEntry :=
  { src := "q", loop := false, volume := 1, isPlaying := false }

/-- Concrete pending entry used by witnesses. -/
def entryQ1 : QueueEntry :=
  { src := "q1", loop := false, volume := 1, isPlaying := false }

/-- Concrete pending entry used by witnesses. -/
def entryQ2 : QueueEntry :=
  { src := "q2", loop := false, volume := 1, isPlaying := false }

/-- Concrete channel used by witnesses: a playing head and one pending
entry. -/
def sampleChannel : Channel :=
  { queue := [entryP, entryQ], volume := 1, isPaused := false,
    duckState := none, status := Status.active }

/-- Concrete channel used by witnesses: a playing head and two pending
entries. -/
def sampleChannel3 : Channel :=
  { queue := [entryP, entryQ1, entryQ2], volume := 1, isPaused := false,
    duckState := none, status := Status.active }

/-! Helper lemmas: queue shapes and the queue invariant. -/

lemma headPlaying_cons (c : Channel) (p : QueueEntry) (t : List QueueEntry)
    (hq : c.queue = p :: t) : headPlaying c = p.isPlaying := by
  simp [headPlaying, hq]

lemma headPlaying_nil (c : Channel) (hq : c.queue = []) :
    headPlaying c = false := by
  simp [headPlaying, hq]

lemma pendingNotPlaying_iff (c : Channel) :
    pendingNotPlaying c = true ↔ ∀ e ∈ c.queue.tail, e.isPlaying = false := by
  simp [pendingNotPlaying]

lemma wf_iff_cons (c : Channel) (p : QueueEntry) (t : List QueueEntry)
    (hq : c.queue = p :: t) :
    wf c ↔ ((∀ e ∈ t, e.isPlaying = false) ∧
      (p.isPlaying = true ↔ c.status ≠ Status.idle)) := by
  unfold wf
  rw [pendingNotPlaying_iff, headPlaying_cons c p t hq, hq]
  simp

lemma wf_of_nil (c : Channel) (hq : c.queue = []) : wf c := by
  unfold wf
  rw [pendingNotPlaying_iff, headPlaying_nil c hq, hq]
  simp

lemma wf_update_cons (c : Channel) (p : QueueEntry) (t t2 : List QueueEntry)
    (h : wf c) (hq : c.queue = p :: t)
    (hsub : ∀ e ∈ t2, e ∈ t ∨ e.isPlaying = false) :
    wf { c with queue := p :: t2 } := by
  rw [wf_iff_cons _ p t2 (by simp)]
  rw [wf_iff_cons c p t hq] at h
  refine ⟨fun e he => (hsub e he).elim (h.1 e) id, ?_⟩
  simpa using h.2

lemma insertNew_nil (src : String) (opts : AudioOptions) (c : Channel)
    (hq : c.queue = []) :
    insertNew src opts c =
      { c with queue := [startEntry src opts], status := Status.active } := by
  rw [insertNew, hq]

lemma insertNew_cons (src : String) (opts : AudioOptions) (c : Channel)
    (p : QueueEntry) (t : List QueueEntry) (hq : c.queue = p :: t) :
    insertNew src opts c =
      if opts.addToFront then
        { c with queue := p :: pendingEntry src opts :: t }
      else
        { c with queue := p :: (t ++ [pendingEntry src opts]) } := by
  rw [insertNew, hq]

lemma wf_insertNew (src : String) (opts : AudioOptions) (c : Channel)
    (h : wf c) : wf (insertNew src opts c) := by
  match hq : c.queue with
  | [] =>
      rw [insertNew_nil src opts c hq]
      rw [wf_iff_cons _ (startEntry src opts) [] (by simp)]
      simp [startEntry]
  | p :: t =>
      rw [insertNew_cons src opts c p t hq]
      by_cases hf : opts.addToFront
      · rw [if_pos hf]
        refine wf_update_cons c p t _ h hq ?_
        intro e he
        rcases List.mem_cons.1 he with he | he
        · exact Or.inr (by simp [he, pendingEntry])
        · exact Or.inl he
      · rw [if_neg hf]
        refine wf_update_cons c p t _ h hq ?_
        intro e he
        rcases List.mem_append.1 he with he | he
        · exact Or.inl he
        · simp only [List.mem_singleton] at he
          exact Or.inr (by simp [he, pendingEntry])

lemma enqueue_not_full (cfg : QueueConfig) (src : String)
    (opts : AudioOptions) (c : Channel) (h : queueIsFull cfg opts c = false) :
    enqueue cfg src opts c = (EnqueueResult.ok, insertNew src opts c) := by
  simp [enqueue, h]

lemma enqueue_full_reject (cfg : QueueConfig) (src : String)
    (opts : AudioOptions) (c : Channel) (hfull : queueIsFull cfg opts c = true)
    (hdrop : cfg.dropOldestWhenFull = false) :
    enqueue cfg src opts c = (EnqueueResult.queueFull, c) := by
  simp [enqueue, hfull, hdrop]

lemma enqueue_full_drop (cfg : QueueConfig) (src : String)
    (opts : AudioOptions) (c : Channel) (hfull : queueIsFull cfg opts c = true)
    (hdrop : cfg.dropOldestWhenFull = true) :
    enqueue cfg src opts c =
      (EnqueueResult.dropped,
        insertNew src opts
          { c with queue := c.queue.take 1 ++ c.queue.drop 2 }) := by
  simp [enqueue, hfull, hdrop]

lemma wf_dropOldest (c : Channel) (h : wf c) :
    wf { c with queue := c.queue.take 1 ++ c.queue.drop 2 } := by
  match hq : c.queue with
  | [] =>
      apply wf_of_nil
      simp [hq]
  | p :: t =>
      have hshape : List.take 1 (p :: t) ++ List.drop 2 (p :: t)
          = p :: List.drop 1 t := by
        simp
      rw [hshape]
      exact wf_update_cons c p t _ h hq
        (fun e he => Or.inl (List.drop_subset _ _ he))

lemma wf_enqueue (cfg : QueueConfig) (src : String) (opts : AudioOptions)
    (c : Channel) (h : wf c) : wf (enqueue cfg src opts c).2 := by
  by_cases hfull : queueIsFull cfg opts c = true
  · by_cases hdrop : cfg.dropOldestWhenFull = true
    · rw [enqueue_full_drop cfg src opts c hfull hdrop]
      exact wf_insertNew src opts _ (wf_dropOldest c h)
    · rw [enqueue_full_reject cfg src opts c hfull
        (Bool.eq_false_iff.2 hdrop)]
      exact h
  · rw [enqueue_not_full cfg src opts c (Bool.eq_false_iff.2 hfull)]
    exact wf_insertNew src opts c h

lemma wf_enqueuePriority (cfg : QueueConfig) (src : String)
    (opts : AudioOptions) (c : Channel) (h : wf c) :
    wf (enqueuePriority cfg src opts c).2 :=
  wf_enqueue cfg src _ c h

lemma removeQueuedItem_invalid (i : Nat) (c : Channel)
    (h : i = 0 ∨ c.queue.length ≤ i) :
    (removeQueuedItem i c).1.success = false ∧
      (removeQueuedItem i c).1.error.isSome = true ∧
      (removeQueuedItem i c).2 = c := by
  rcases h with h | h
  · simp [removeQueuedItem, h]
  · by_cases h0 : i = 0
    · simp [removeQueuedItem, h0]
    · simp [removeQueuedItem, h0, h]

lemma removeQueuedItem_valid (i : Nat) (c : Channel) (h1 : 1 ≤ i)
    (h2 : i < c.queue.length) :
    (removeQueuedItem i c).1.success = true ∧
      (removeQueuedItem i c).2 =
        { c with queue := c.queue.take i ++ c.queue.drop (i + 1) } := by
  have h0 : ¬ i = 0 := by omega
  have hlen : ¬ c.queue.length ≤ i := by omega
  simp [removeQueuedItem, h0, hlen]

lemma wf_removeQueuedItem (i : Nat) (c : Channel) (h : wf c) :
    wf (removeQueuedItem i c).2 := by
  by_cases hv : 1 ≤ i ∧ i < c.queue.length
  · obtain ⟨hi, hlen⟩ := hv
    rw [(removeQueuedItem_valid i c hi hlen).2]
    obtain ⟨j, rfl⟩ : ∃ j, i = j + 1 := ⟨i - 1, by omega⟩
    match hq : c.queue with
    | [] =>
        rw [hq] at hlen
        simp at hlen
    | p :: t =>
        have hshape : List.take (j + 1) (p :: t) ++ List.drop (j + 1 + 1) (p :: t)
            = p :: (t.take j ++ t.drop (j + 1)) := by
          simp
        rw [hshape]
        refine wf_update_cons c p t _ h hq ?_
        intro e he
        rcases List.mem_append.1 he with he | he
        · exact Or.inl (List.take_subset _ _ he)
        · exact Or.inl (List.drop_subset _ _ he)
  · have hio : i = 0 ∨ c.queue.length ≤ i := by omega
    rw [(removeQueuedItem_invalid i c hio).2.2]
    exact h

lemma reorderQueue_invalid (fi ti : Nat) (c : Channel)
    (h : ¬(1 ≤ fi ∧ fi < c.queue.length ∧ 1 ≤ ti ∧ ti < c.queue.length)) :
    reorderQueue fi ti c =
      ({ success := false, error := some "invalid index" }, c) := by
  rw [reorderQueue, if_neg h]

lemma reorderQueue_valid (fi ti : Nat) (c : Channel) (p entry : QueueEntry)
    (t : List QueueEntry)
    (hc : 1 ≤ fi ∧ fi < c.queue.length ∧ 1 ≤ ti ∧ ti < c.queue.length)
    (hq : c.queue = p :: t) (hget : t[fi - 1]? = some entry) :
    (reorderQueue fi ti c).2 = { c with queue := p :: ((t.take (fi - 1) ++ t.drop fi).take (ti - 1) ++ entry :: (t.take (fi - 1) ++ t.drop fi).drop (ti - 1)) } := by
  rw [reorderQueue, if_pos hc, hq]
  simp [hget]

lemma wf_reorderQueue (fi ti : Nat) (c : Channel) (h : wf c) :
    wf (reorderQueue fi ti c).2 := by
  by_cases hc : 1 ≤ fi ∧ fi < c.queue.length ∧ 1 ≤ ti ∧ ti < c.queue.length
  · match hq : c.queue with
    | [] =>
        rw [hq] at hc
        have : fi < 0 := by simpa using hc.2.1
        omega
    | p :: t =>
        have hc' := hc
        rw [hq] at hc'
        have hlt : fi - 1 < t.length := by
          simp only [List.length_cons] at hc'
          omega
        obtain ⟨entry, hget⟩ : ∃ e, t[fi - 1]? = some e := by
          rw [List.getElem?_eq_getElem hlt]
          exact ⟨_, rfl⟩
        have hentry : entry ∈ t := List.getElem?_mem hget
        rw [reorderQueue_valid fi ti c p entry t hc hq hget]
        refine wf_update_cons c p t _ h hq ?_
        have hmemt1 : ∀ x ∈ t.take (fi - 1) ++ t.drop fi, x ∈ t := by
          intro x hx
          rcases List.mem_append.1 hx with hx | hx
          · exact List.take_subset _ _ hx
          · exact List.drop_subset _ _ hx
        intro e he
        rcases List.mem_append.1 he with he | he
        · exact Or.inl (hmemt1 _ (List.take_subset _ _ he))
        · rcases List.mem_cons.1 he with he | he
          · exact Or.inl (he ▸ hentry)
          · exact Or.inl (hmemt1 _ (List.drop_subset _ _ he))
  · rw [congrArg Prod.snd (reorderQueue_invalid fi ti c hc)]
    exact h

lemma swapQueueItems_invalid (a b : Nat) (c : Channel)
    (h : ¬(1 ≤ a ∧ a < c.queue.length ∧ 1 ≤ b ∧ b < c.queue.length)) :
    swapQueueItems a b c =
      ({ success := false, error := some "invalid index" }, c) := by
  rw [swapQueueItems, if_neg h]

lemma swapQueueItems_valid (a b : Nat) (c : Channel) (p ea eb : QueueEntry)
    (t : List QueueEntry)
    (hc : 1 ≤ a ∧ a < c.queue.length ∧ 1 ≤ b ∧ b < c.queue.length)
    (hq : c.queue = p :: t) (ha : t[a - 1]? = some ea)
    (hb : t[b - 1]? = some eb) :
    (swapQueueItems a b c).2 = { c with queue := p :: ((t.set (a - 1) eb).set (b - 1) ea) } := by
  rw [swapQueueItems, if_pos hc, hq]
  simp [ha, hb]

lemma wf_swapQueueItems (a b : Nat) (c : Channel) (h : wf c) :
    wf (swapQueueItems a b c).2 := by
  by_cases hc : 1 ≤ a ∧ a < c.queue.length ∧ 1 ≤ b ∧ b < c.queue.length
  · match hq : c.queue with
    | [] =>
        rw [hq] at hc
        have : a < 0 := by simpa using hc.2.1
        omega
    | p :: t =>
        have hc' := hc
        rw [hq] at hc'
        have hlta : a - 1 < t.length := by
          simp only [List.length_cons] at hc'
          omega
        have hltb : b - 1 < t.length := by
          simp only [List.length_cons] at hc'
          omega
        obtain ⟨ea, ha⟩ : ∃ e, t[a - 1]? = some e := by
          rw [List.getElem?_eq_getElem hlta]
          exact ⟨_, rfl⟩
        obtain ⟨eb, hb⟩ : ∃ e, t[b - 1]? = some e := by
          rw [List.getElem?_eq_getElem hltb]
          exact ⟨_, rfl⟩
        have hea : ea ∈ t := List.getElem?_mem ha
        have heb : eb ∈ t := List.getElem?_mem hb
        rw [swapQueueItems_valid a b c p ea eb t hc hq ha hb]
        refine wf_update_cons c p t _ h hq ?_
        intro e he
        rcases List.mem_or_eq_of_mem_set he with he | he
        · rcases List.mem_or_eq_of_mem_set he with he | he
          · exact Or.inl he
          · exact Or.inl (he ▸ heb)
        · exact Or.inl (he ▸ hea)
  · rw [congrArg Prod.snd (swapQueueItems_invalid a b c hc)]
    exact h

lemma clearQueueAfterCurrent_eq (c : Channel) :
    (clearQueueAfterCurrent c).2 =
      (if headPlaying c then { c with queue := c.queue.take 1 } else { c with queue := [] }) := by
  rw [clearQueueAfterCurrent]
  by_cases hp : headPlaying c <;> simp [hp]

lemma wf_clearQueueAfterCurrent (c : Channel) (h : wf c) :
    wf (clearQueueAfterCurrent c).2 := by
  rw [clearQueueAfterCurrent_eq]
  by_cases hp : headPlaying c = true
  · rw [if_pos hp]
    match hq : c.queue with
    | [] =>
        rw [headPlaying_nil c hq] at hp
        exact absurd hp (by simp)
    | p :: t =>
        have hshape : List.take 1 (p :: t) = p :: ([] : List QueueEntry) := by
          simp
        rw [hshape]
        exact wf_update_cons c p t [] h hq (by simp)
  · rw [if_neg hp]
    exact wf_of_nil _ (by simp)

lemma advance_nil (c : Channel) (hq : c.queue = []) :
    advance c = { c with status := Status.idle } := by
  rw [advance, hq]

lemma advance_single (c : Channel) (e : QueueEntry) (hq : c.queue = [e]) :
    advance c = { c with queue := [], status := Status.idle } := by
  rw [advance, hq]

lemma advance_cons (c : Channel) (e1 e2 : QueueEntry)
    (rest : List QueueEntry) (hq : c.queue = e1 :: e2 :: rest) :
    advance c = { c with queue := { e2 with isPlaying := true } :: rest, status := Status.active } := by
  rw [advance, hq]

lemma wf_advance (c : Channel) (h : wf c) : wf (advance c) := by
  match hq : c.queue with
  | [] =>
      rw [advance_nil c hq]
      exact wf_of_nil _ (by simp [hq])
  | [e] =>
      rw [advance_single c e hq]
      exact wf_of_nil _ (by simp)
  | e1 :: e2 :: rest =>
      rw [advance_cons c e1 e2 rest hq]
      rw [wf_iff_cons _ { e2 with isPlaying := true } rest (by simp)]
      rw [wf_iff_cons c e1 (e2 :: rest) hq] at h
      constructor
      · intro e he
        exact h.1 e (List.mem_cons_of_mem _ he)
      · simp

/-! Helper lemmas: ducking. -/

lemma applyDuck_queue (cfg : VolumeConfig) (act : Bool) (n : Nat)
    (c : Channel) : (applyDuck cfg act n c).queue = c.queue := by
  unfold applyDuck
  split_ifs <;> rfl

lemma headPlaying_applyDuck (cfg : VolumeConfig) (act : Bool) (n : Nat)
    (c : Channel) : headPlaying (applyDuck cfg act n c) = headPlaying c := by
  simp [headPlaying, applyDuck_queue]

lemma applyDuck_idem (cfg : VolumeConfig) (act : Bool) (n : Nat)
    (c : Channel) :
    applyDuck cfg act n (applyDuck cfg act n c) = applyDuck cfg act n c := by
  unfold applyDuck
  split_ifs <;> rfl

lemma find?_map_keyed (f : Nat → Channel → Channel)
    (l : List (Nat × Channel)) (n : Nat) :
    ((l.map fun p => (p.1, f p.1 p.2)).find? fun p => p.1 == n).map (fun p => p.2)
      = ((l.find? fun p => p.1 == n).map fun p => p.2).map (f n) := by
  induction l with
  | nil => rfl
  | cons hd tl ih =>
      obtain ⟨k, v⟩ := hd
      by_cases h : k = n
      · subst h
        simp
      · have hb : (k == n) = false := by simpa using h
        simpa [List.find?_cons, hb] using ih

lemma getChannel_setVolumeDucking (cfg : VolumeConfig) (s : System)
    (n : Nat) :
    getChannel (setVolumeDucking cfg s) n
      = (getChannel s n).map
          (applyDuck cfg (channelActive s cfg.priorityChannel) n) := by
  unfold getChannel setVolumeDucking
  simp only []
  exact find?_map_keyed _ s.channels n

lemma channelActive_setVolumeDucking (cfg : VolumeConfig) (s : System)
    (m : Nat) :
    channelActive (setVolumeDucking cfg s) m = channelActive s m := by
  unfold channelActive
  rw [getChannel_setVolumeDucking]
  cases h : getChannel s m <;> simp [headPlaying_applyDuck]

/-! Helper lemmas: subscriber registry. -/

lemma unsubscribe_subscribe (ch : Nat) (k : EventKind) (cb : Nat)
    (r : Registry) (h : (ch, k, cb) ∉ r.subs) :
    (unsubscribe ch k cb (subscribe ch k cb r).2).subs = r.subs := by
  unfold unsubscribe subscribe
  simp only [List.filter_append]
  have hs : r.subs.filter
      (fun e => !(e.1 == ch && e.2.1 == k && e.2.2 == cb)) = r.subs := by
    rw [List.filter_eq_self]
    intro e he
    have hne : e ≠ (ch, k, cb) := fun hcontra => h (hcontra ▸ he)
    rcases e with ⟨e1, e2, e3⟩
    have hnot : ¬(e1 = ch ∧ e2 = k ∧ e3 = cb) := by
      rintro ⟨rfl, rfl, rfl⟩
      exact hne rfl
    by_cases h1 : e1 = ch
    · by_cases h2 : e2 = k
      · have h3 : ¬ e3 = cb := fun h3 => hnot ⟨h1, h2, h3⟩
        simp [h3]
      · simp [h2]
    · simp [h1]
  rw [hs]
  simp

lemma getElemQ_tail (l : List QueueEntry) (k : Nat) (e : QueueEntry)
    (h : l[k + 1]? = some e) : e ∈ l.tail := by
  match l with
  | [] => simp at h
  | a :: t =>
      simp only [List.getElem?_cons_succ] at h
      simpa using List.getElem?_mem h

lemma sublist_insertNew (src : String) (opts : AudioOptions) (c : Channel) :
    c.queue.Sublist (insertNew src opts c).queue := by
  match hq : c.queue with
  | [] =>
      rw [insertNew_nil src opts c hq]
      exact List.nil_sublist _
  | p :: t =>
      rw [insertNew_cons src opts c p t hq]
      by_cases hf : opts.addToFront
      · rw [if_pos hf]
        exact List.Sublist.cons₂ p (List.sublist_cons_self _ t)
      · rw [if_neg hf]
        exact List.Sublist.cons₂ p (List.sublist_append_left t _)

/-! Claim theorems. -/

/-- C1: for every channel at all times, at most one queue entry has
`isPlaying = true`, that entry (when it exists) is at index 0, and the
index-0 entry is playing iff the queue is non-empty and the channel is not
idle; every queue-mutating operation — enqueue, priority enqueue, removeAt,
reorder, swap, clear-after-current and advance — preserves this invariant. -/
theorem C1_queue_invariant (cfg : QueueConfig) (src : String)
    (opts : AudioOptions) (c : Channel) (i fi ti a b : Nat) (h : wf c) :
    (∀ j e, c.queue[j]? = some e → e.isPlaying = true → j = 0) ∧
    (headPlaying c = true ↔ (c.queue ≠ [] ∧ c.status ≠ Status.idle)) ∧
    wf (enqueue cfg src opts c).2 ∧
    wf (enqueuePriority cfg src opts c).2 ∧
    wf (removeQueuedItem i c).2 ∧
    wf (reorderQueue fi ti c).2 ∧
    wf (swapQueueItems a b c).2 ∧
    wf (clearQueueAfterCurrent c).2 ∧
    wf (advance c) := by
  refine ⟨?_, h.2, wf_enqueue cfg src opts c h,
    wf_enqueuePriority cfg src opts c h, wf_removeQueuedItem i c h,
    wf_reorderQueue fi ti c h, wf_swapQueueItems a b c h,
    wf_clearQueueAfterCurrent c h, wf_advance c h⟩
  intro j e hje hp
  cases j with
  | zero => rfl
  | succ k =>
      have hmem := getElemQ_tail c.queue k e hje
      have hfalse := (pendingNotPlaying_iff c).1 h.1 e hmem
      rw [hp] at hfalse
      exact absurd hfalse (by simp)

/-- C1 witness: the invariant theorem applied to a concrete two-entry
playing channel. -/
theorem C1_queue_invariant_witness :
    wf sampleChannel ∧
      ((∀ j e, sampleChannel.queue[j]? = some e → e.isPlaying = true → j = 0) ∧
        (headPlaying sampleChannel = true ↔
          (sampleChannel.queue ≠ [] ∧ sampleChannel.status ≠ Status.idle)) ∧
        wf (enqueue defaultQueueConfig "x" {} sampleChannel).2 ∧
        wf (enqueuePriority defaultQueueConfig "x" {} sampleChannel).2 ∧
        wf (removeQueuedItem 1 sampleChannel).2 ∧
        wf (reorderQueue 1 1 sampleChannel).2 ∧
        wf (swapQueueItems 1 1 sampleChannel).2 ∧
        wf (clearQueueAfterCurrent sampleChannel).2 ∧
        wf (advance sampleChannel)) :=
  ⟨by decide,
    C1_queue_invariant defaultQueueConfig "x" {} sampleChannel 1 1 1 1 1
      (by decide)⟩

/-- C2: for every channel and every index that is 0 or out of range, each of
`removeQueuedItem`, `reorderQueue` and `swapQueueItems` returns a synchronous
failure result (`success = false` with an error message) instead of throwing,
and leaves the channel — in particular its queue — completely unchanged. -/
theorem C2_invalid_index_failure (c : Channel) (i fi ti a b : Nat)
    (hi : i = 0 ∨ c.queue.length ≤ i)
    (hr : fi = 0 ∨ c.queue.length ≤ fi ∨ ti = 0 ∨ c.queue.length ≤ ti)
    (hs : a = 0 ∨ c.queue.length ≤ a ∨ b = 0 ∨ c.queue.length ≤ b) :
    ((removeQueuedItem i c).1.success = false ∧
      (removeQueuedItem i c).1.error.isSome = true ∧
      (removeQueuedItem i c).2 = c) ∧
    ((reorderQueue fi ti c).1.success = false ∧
      (reorderQueue fi ti c).1.error.isSome = true ∧
      (reorderQueue fi ti c).2 = c) ∧
    ((swapQueueItems a b c).1.success = false ∧
      (swapQueueItems a b c).1.error.isSome = true ∧
      (swapQueueItems a b c).2 = c) := by
  refine ⟨removeQueuedItem_invalid i c hi, ?_, ?_⟩
  · have h : ¬(1 ≤ fi ∧ fi < c.queue.length ∧ 1 ≤ ti ∧ ti < c.queue.length) := by
      rcases hr with h | h | h | h <;> omega
    rw [reorderQueue_invalid fi ti c h]
    exact ⟨rfl, rfl, rfl⟩
  · have h : ¬(1 ≤ a ∧ a < c.queue.length ∧ 1 ≤ b ∧ b < c.queue.length) := by
      rcases hs with h | h | h | h <;> omega
    rw [swapQueueItems_invalid a b c h]
    exact ⟨rfl, rfl, rfl⟩

/-- C2 witness: the failure theorem applied to index 0 and out-of-range
indices on a concrete two-entry channel. -/
theorem C2_invalid_index_failure_witness :
    (0 = 0 ∨ sampleChannel.queue.length ≤ 0) ∧
    ((5 : Nat) = 0 ∨ sampleChannel.queue.length ≤ 5 ∨ (1 : Nat) = 0 ∨
      sampleChannel.queue.length ≤ 1) ∧
    ((0 : Nat) = 0 ∨ sampleChannel.queue.length ≤ 0 ∨ (1 : Nat) = 0 ∨
      sampleChannel.queue.length ≤ 1) ∧
    (((removeQueuedItem 0 sampleChannel).1.success = false ∧
      (removeQueuedItem 0 sampleChannel).1.error.isSome = true ∧
      (removeQueuedItem 0 sampleChannel).2 = sampleChannel) ∧
    ((reorderQueue 5 1 sampleChannel).1.success = false ∧
      (reorderQueue 5 1 sampleChannel).1.error.isSome = true ∧
      (reorderQueue 5 1 sampleChannel).2 = sampleChannel) ∧
    ((swapQueueItems 0 1 sampleChannel).1.success = false ∧
      (swapQueueItems 0 1 sampleChannel).1.error.isSome = true ∧
      (swapQueueItems 0 1 sampleChannel).2 = sampleChannel)) :=
  ⟨by decide, by decide, by decide,
    C2_invalid_index_failure sampleChannel 0 5 1 0 1 (by decide) (by decide)
      (by decide)⟩

/-- C3: for every channel whose queue is `[P, Q1, Q2]` with `P` in flight,
a priority enqueue that is not rejected by a full queue inserts the new
entry at index 1, yielding exactly `[P, X, Q1, Q2]`: the new entry sits
immediately after the currently playing item, never at index 0, the new
entry is not playing, and the head entry and the channel status are
untouched. -/
theorem C3_priority_enqueue (cfg : QueueConfig) (src : String)
    (opts : AudioOptions) (c : Channel) (P Q1 Q2 : QueueEntry)
    (hq : c.queue = [P, Q1, Q2])
    (hfull : queueIsFull cfg opts c = false) :
    (enqueuePriority cfg src opts c).2.queue =
      [P, pendingEntry src opts, Q1, Q2] ∧
    (enqueuePriority cfg src opts c).2.status = c.status ∧
    (pendingEntry src opts).isPlaying = false := by
  unfold enqueuePriority
  have hfull2 : queueIsFull cfg { opts with addToFront := true } c = false :=
    hfull
  rw [enqueue_not_full cfg src _ c hfull2]
  rw [insertNew_cons src _ c P [Q1, Q2] hq]
  simp [pendingEntry]

/-- C3 witness: the priority-enqueue theorem applied to a concrete
three-entry channel with a playing head. -/
theorem C3_priority_enqueue_witness :
    sampleChannel3.queue = [entryP, entryQ1, entryQ2] ∧
    queueIsFull defaultQueueConfig {} sampleChannel3 = false ∧
    ((enqueuePriority defaultQueueConfig "x" {} sampleChannel3).2.queue =
      [entryP, pendingEntry "x" {}, entryQ1, entryQ2] ∧
    (enqueuePriority defaultQueueConfig "x" {} sampleChannel3).2.status =
      sampleChannel3.status ∧
    (pendingEntry "x" {}).isPlaying = false) :=
  ⟨by decide, by decide,
    C3_priority_enqueue defaultQueueConfig "x" {} sampleChannel3 entryP
      entryQ1 entryQ2 (by decide) (by decide)⟩

/-- C4: enqueuing three items in order on an empty channel with plain
(non-priority) enqueues and letting each complete naturally plays them in
exactly that order. -/
theorem C4_fifo_order (a b c : String) :
    playTrace (enqueue defaultQueueConfig c {}
      (enqueue defaultQueueConfig b {}
        (enqueue defaultQueueConfig a {} emptyChannel).2).2).2 = [a, b, c] := by
  rfl

/-- C5: under the policy `maxRetries = 3`, `exponentialBackoff = true`,
`baseDelay = 100` and no fallback URLs, four (or more) consecutive failures
of one entry produce exactly three scheduled retries with delays
`100, 200, 400` (`baseDelay × 2^attempt`) followed by exactly one terminal
error event, and no further automatic retry once the bound is reached. -/
theorem C5_retry_bound :
    retryCfg100.maxRetries = 3 ∧ retryCfg100.exponentialBackoff = true ∧
    retryCfg100.baseDelay = 100 ∧ retryCfg100.fallbackUrls = [] ∧
    (∀ k : Nat, simulateFailures retryCfg100 0 0 (k + 4) =
      [FailureEvent.retryScheduled 100, FailureEvent.retryScheduled 200,
        FailureEvent.retryScheduled 400, FailureEvent.terminalError]) := by
  refine ⟨rfl, rfl, rfl, rfl, ?_⟩
  intro k
  rfl

/-- C6: `clearQueueAfterCurrent` removes every entry at index ≥ 1, leaves a
playing index-0 entry completely unchanged — the queue afterwards is exactly
that entry — and empties the queue entirely when nothing is playing; the
rest of the channel state is untouched and the call reports success. -/
theorem C6_clear_after_current (c : Channel) :
    (∀ e t, c.queue = e :: t → e.isPlaying = true →
      (clearQueueAfterCurrent c).2.queue = [e]) ∧
    (headPlaying c = false → (clearQueueAfterCurrent c).2.queue = []) ∧
    (clearQueueAfterCurrent c).2.status = c.status ∧
    (clearQueueAfterCurrent c).2.volume = c.volume ∧
    (clearQueueAfterCurrent c).2.isPaused = c.isPaused ∧
    (clearQueueAfterCurrent c).1.success = true := by
  refine ⟨?_, ?_, ?_, ?_, ?_, ?_⟩
  · intro e t hq hp
    have hhp : headPlaying c = true := by
      rw [headPlaying_cons c e t hq, hp]
    rw [clearQueueAfterCurrent_eq, if_pos hhp]
    simp [hq]
  · intro hp
    rw [clearQueueAfterCurrent_eq, if_neg (by simp [hp])]
  · rw [clearQueueAfterCurrent_eq]
    by_cases hp : headPlaying c <;> simp [hp]
  · rw [clearQueueAfterCurrent_eq]
    by_cases hp : headPlaying c <;> simp [hp]
  · rw [clearQueueAfterCurrent_eq]
    by_cases hp : headPlaying c <;> simp [hp]
  · unfold clearQueueAfterCurrent
    by_cases hp : headPlaying c <;> simp [hp]

/-- C6 witness: clearing a concrete three-entry channel keeps exactly its
playing head and leaves the channel status unchanged. -/
theorem C6_clear_after_current_witness :
    sampleChannel3.queue = entryP :: [entryQ1, entryQ2] ∧
    (clearQueueAfterCurrent sampleChannel3).2.queue = [entryP] ∧
    (clearQueueAfterCurrent sampleChannel3).2.status =
      sampleChannel3.status :=
  ⟨by decide,
    (C6_clear_after_current sampleChannel3).1 entryP [entryQ1, entryQ2]
      (by decide) (by decide),
    (C6_clear_after_current sampleChannel3).2.2.1⟩

/-- C7: installing the same ducking policy twice in succession yields the
same effective volume on every channel as installing it once —
`setVolumeDucking` is idempotent with respect to effective volumes. -/
theorem C7_ducking_idempotent (cfg : VolumeConfig) (s : System) (n : Nat) :
    channelEffectiveVolume (setVolumeDucking cfg (setVolumeDucking cfg s)) n
      = channelEffectiveVolume (setVolumeDucking cfg s) n := by
  unfold channelEffectiveVolume
  rw [getChannel_setVolumeDucking cfg (setVolumeDucking cfg s) n,
    channelActive_setVolumeDucking cfg s cfg.priorityChannel,
    getChannel_setVolumeDucking cfg s n]
  cases h : getChannel s n <;> simp [applyDuck_idem]

/-- C8 counterexample: the documented subscription functions return `void`
(`Unit`): the value returned for two distinct callbacks is identical, so it
cannot serve as a disposer identifying the registration; moreover the
documented removal for progress callbacks, `offAudioProgress(channel)`,
erases every progress callback of the channel, not exactly one. -/
theorem C8_no_disposer_counterexample :
    (onAudioStart 0 1 emptyRegistry).1 = (onAudioStart 0 2 emptyRegistry).1 ∧
    (onAudioError 0 1 emptyRegistry).1 = (onAudioError 0 2 emptyRegistry).1 ∧
    (offAudioProgress 0
      (onAudioProgress 0 2 (onAudioProgress 0 1 emptyRegistry).2).2).subs =
      [] := by
  exact ⟨rfl, rfl, by decide⟩

/-- C8 amended: the documented subscription functions return `void`, not a
disposer; a callback is unregistered through the matching `off…` function
with the callback argument, which removes exactly that registration — after
registering a previously absent callback, `offAudioStart` with the same
channel and callback restores the registry precisely. -/
theorem C8_subscription_amended (ch cb : Nat) (r : Registry)
    (h : (ch, EventKind.start, cb) ∉ r.subs) :
    (onAudioStart ch cb r).1 = () ∧
    (onAudioStart ch cb r).2.subs = r.subs ++ [(ch, EventKind.start, cb)] ∧
    (offAudioStart ch cb (onAudioStart ch cb r).2).subs = r.subs := by
  refine ⟨rfl, rfl, ?_⟩
  exact unsubscribe_subscribe ch EventKind.start cb r h

/-- C8 witness: the amended subscription theorem applied to the empty
registry, channel 0 and callback 7. -/
theorem C8_subscription_amended_witness :
    (0, EventKind.start, 7) ∉ emptyRegistry.subs ∧
    ((onAudioStart 0 7 emptyRegistry).1 = () ∧
      (onAudioStart 0 7 emptyRegistry).2.subs =
        emptyRegistry.subs ++ [(0, EventKind.start, 7)] ∧
      (offAudioStart 0 7 (onAudioStart 0 7 emptyRegistry).2).subs =
        emptyRegistry.subs) :=
  ⟨by decide, C8_subscription_amended 0 7 emptyRegistry (by decide)⟩

/-- C9: before any `setRetryConfig` call, `getRetryConfig` returns the
documented defaults — retries enabled, at most 3 of them, 1000 ms base
delay, 10000 ms load timeout, exponential backoff with doubling delays
(1 s, 2 s, 4 s, 8 s), no skip on failure and no fallback URLs. -/
theorem C9_default_retry_config :
    getRetryConfig initialSystem = defaultRetryConfig ∧
    (getRetryConfig initialSystem).enabled = true ∧
    (getRetryConfig initialSystem).maxRetries = 3 ∧
    (getRetryConfig initialSystem).baseDelay = 1000 ∧
    (getRetryConfig initialSystem).timeoutMs = 10000 ∧
    (getRetryConfig initialSystem).exponentialBackoff = true ∧
    (getRetryConfig initialSystem).skipOnFailure = false ∧
    (getRetryConfig initialSystem).fallbackUrls = [] ∧
    List.map (retryDelay (getRetryConfig initialSystem)) [0, 1, 2, 3] =
      [1000, 2000, 4000, 8000] := by
  exact ⟨rfl, rfl, rfl, rfl, rfl, rfl, rfl, rfl, by decide⟩

/-- C10: with eviction disabled (`dropOldestWhenFull = false`, the
documented default, under which `defaultMaxQueueSize` is unlimited), an
enqueue onto a channel whose effective cap is reached is rejected with a
`queueFull` result and the channel is left completely unchanged; moreover no
enqueue ever evicts a queued item — the old queue is always a sublist of the
new one. -/
theorem C10_full_queue_reject (cfg : QueueConfig) (src : String)
    (opts : AudioOptions) (c : Channel) (cap : Nat)
    (hdrop : cfg.dropOldestWhenFull = false)
    (hcap : effectiveCap cfg opts = some cap)
    (hlen : cap ≤ c.queue.length) :
    defaultQueueConfig.defaultMaxQueueSize = none ∧
    defaultQueueConfig.dropOldestWhenFull = false ∧
    enqueue cfg src opts c = (EnqueueResult.queueFull, c) ∧
    (∀ (src2 : String) (opts2 : AudioOptions) (c2 : Channel),
      c2.queue.Sublist (enqueue cfg src2 opts2 c2).2.queue) := by
  have hfull : queueIsFull cfg opts c = true := by
    rw [queueIsFull, hcap]
    simpa using hlen
  refine ⟨rfl, rfl, enqueue_full_reject cfg src opts c hfull hdrop, ?_⟩
  intro src2 opts2 c2
  by_cases hfull2 : queueIsFull cfg opts2 c2 = true
  · rw [enqueue_full_reject cfg src2 opts2 c2 hfull2 hdrop]
  · rw [enqueue_not_full cfg src2 opts2 c2 (Bool.eq_false_iff.2 hfull2)]
    exact sublist_insertNew src2 opts2 c2

/-- C10 witness: the rejection theorem applied to a concrete two-entry
channel whose per-enqueue cap of 2 is already reached. -/
theorem C10_full_queue_reject_witness :
    defaultQueueConfig.dropOldestWhenFull = false ∧
    effectiveCap defaultQueueConfig { maxQueueSize := some 2 } = some 2 ∧
    2 ≤ sampleChannel.queue.length ∧
    (defaultQueueConfig.defaultMaxQueueSize = none ∧
      defaultQueueConfig.dropOldestWhenFull = false ∧
      enqueue defaultQueueConfig "x" { maxQueueSize := some 2 } sampleChannel
        = (EnqueueResult.queueFull, sampleChannel) ∧
      (∀ (src2 : String) (opts2 : AudioOptions) (c2 : Channel),
        c2.queue.Sublist
          (enqueue defaultQueueConfig src2 opts2 c2).2.queue)) :=
  ⟨by decide, by decide, by decide,
    C10_full_queue_reject defaultQueueConfig "x" { maxQueueSize := some 2 }
      sampleChannel 2 (by decide) (by decide) (by decide)⟩

end AudioQueue
